import Mathlib

/-!
Verification of the chess-puzzle-trainer core against its specification.

The development shallowly embeds the two core components of the repository:

* `MoveValidator` (src/core/move_validator.py) — the solution state machine
  that drives a chess board through a puzzle's recorded move sequence; and
* `PuzzleSelector.select_puzzle` (src/core/puzzle_selector.py) together with
  its helpers in src/config/settings.py, src/config/constants.py and
  `PuzzleManager._rating_to_difficulty` (src/core/puzzle_manager.py).

The third-party chess rules engine (python-chess) is not part of the
repository; per the specification it is a black-box collaborator with the
contract in section 6 (FEN construction, move application, legal move
enumeration, SAN/UCI parsing, structural move equality).  The `Board`
functions below are therefore modelled from the spec, implementing the
standard chess rules the contract describes, and mirroring the observable
success/failure behaviour of the library calls the validator makes
(`chess.Board(fen)`, `Move.from_uci`, `Board.push`, `Board.parse_san`,
`Board.legal_moves`, `Board.san`).

The SQLite puzzle store is likewise modelled as a list of rows, with
`ORDER BY RANDOM() LIMIT 1` abstracted to "the first matching row"
(`List.find?`): a query returns some matching row exactly when a matching
row exists, which is the only property of the store's pseudo-random choice
that the specification relies on.

String helpers are re-implemented over `List Char` so that every definition
reduces inside the kernel (the built-in `String.splitOn`/`trim` use
well-founded recursion and do not).
-/

namespace CPG

/-! ## String helpers (kernel-reducible equivalents of Python str methods) -/

/-- Whitespace test used by `strTrim` (Python `str.strip`). -/
def isSpaceChar (c : Char) : Bool :=
  c = ' ' ∨ c = '\t' ∨ c = '\n' ∨ c = '\r'

def dropLeadingSpace : List Char → List Char
  | [] => []
  | c :: rest => if isSpaceChar c then dropLeadingSpace rest else c :: rest

/-- Python `str.strip()` on both ends. -/
def strTrim (s : String) : String :=
  String.mk ((dropLeadingSpace (dropLeadingSpace s.toList.reverse).reverse))

/-- Split a character list on a separator character (Python `str.split(sep)`,
    keeping empty fields like `"a//b".split("/")` does). -/
def charsSplit (sep : Char) : List Char → List (List Char)
  | [] => [[]]
  | c :: rest =>
    let r := charsSplit sep rest
    if c = sep then [] :: r
    else
      match r with
      | [] => [[c]]
      | h :: t => (c :: h) :: t

/-- Python `str.split()` with no argument: split on runs of whitespace,
    discarding empty fields. -/
def strSplitWs (s : String) : List String :=
  ((charsSplit ' ' s.toList).filter (fun l => !l.isEmpty)).map String.mk

/-- Split a string on a single-character separator, keeping empty fields. -/
def strSplitOn (sep : Char) (s : String) : List String :=
  (charsSplit sep s.toList).map String.mk

def digitVal (c : Char) : Option Nat :=
  if '0' ≤ c ∧ c ≤ '9' then some (c.toNat - '0'.toNat) else none

def natOfChars : List Char → Option Nat → Option Nat
  | [], acc => acc
  | c :: rest, acc =>
    match digitVal c with
    | some d => natOfChars rest (some ((acc.getD 0) * 10 + d))
    | none => none

/-- Python `int(s)` restricted to non-negative decimal literals (sufficient
    for the FEN counter fields used here); `none` models `ValueError`. -/
def strToNum (s : String) : Option Nat :=
  natOfChars s.toList none

/-! ## Chess rules engine

Modelled from the spec (section 6, "Chess rules engine contract"): the
position is constructible from a FEN string; the engine supports applying a
move, enumerating legal moves, parsing a move from algebraic (SAN) or
coordinate (UCI) notation relative to the current position, and reporting
whose turn it is; two moves are equal iff from-square, to-square and
promotion piece are equal.  Squares are 0..63 with `file = sq % 8`,
`rank = sq / 8` (a1 = 0, h1 = 7, a8 = 56, h8 = 63). -/

inductive Color where
  | white
  | black
deriving DecidableEq, Repr

def Color.other : Color → Color
  | .white => .black
  | .black => .white

inductive PieceType where
  | pawn
  | knight
  | bishop
  | rook
  | queen
  | king
deriving DecidableEq, Repr

structure Piece where
  color : Color
  ptype : PieceType
deriving DecidableEq, Repr

/-- A move is identified by from-square, to-square and optional promotion
    piece; equality is structural (spec section 6). -/
structure Move where
  fromSq : Nat
  toSq : Nat
  promo : Option PieceType
deriving DecidableEq, Repr

structure Castling where
  wk : Bool
  wq : Bool
  bk : Bool
  bq : Bool
deriving DecidableEq, Repr

/-- Board state: 64 squares (index = square number), side to move, castling
    rights and en-passant target square.  Move counters are parsed from FEN
    but not stored; no behaviour the validator observes depends on them. -/
structure Board where
  squares : List (Option Piece)
  turn : Color
  castling : Castling
  epSquare : Option Nat
deriving DecidableEq, Repr

def Board.pieceAt (b : Board) (sq : Nat) : Option Piece :=
  b.squares.getD sq none

def fileOf (sq : Nat) : Nat := sq % 8

def rankOf (sq : Nat) : Nat := sq / 8

/-- Build a square from file/rank given as integers; `none` when off-board. -/
def mkSq (f r : Int) : Option Nat :=
  if 0 ≤ f ∧ f < 8 ∧ 0 ≤ r ∧ r < 8 then some ((r * 8 + f).toNat) else none

def knightOffsets : List (Int × Int) :=
  [(1, 2), (2, 1), (2, -1), (1, -2), (-1, -2), (-2, -1), (-2, 1), (-1, 2)]

def kingOffsets : List (Int × Int) :=
  [(1, 0), (1, 1), (0, 1), (-1, 1), (-1, 0), (-1, -1), (0, -1), (1, -1)]

def slideDirs : PieceType → List (Int × Int)
  | .bishop => [(1, 1), (1, -1), (-1, 1), (-1, -1)]
  | .rook => [(1, 0), (-1, 0), (0, 1), (0, -1)]
  | .queen => [(1, 1), (1, -1), (-1, 1), (-1, -1), (1, 0), (-1, 0), (0, 1), (0, -1)]
  | _ => []

/-- White pawns move toward higher ranks, black toward lower. -/
def pawnDir : Color → Int
  | .white => 1
  | .black => -1

/-- Squares along a ray from (f, r) in direction (df, dr), stopping at (and
    including) the first occupied square; `fuel` bounds the recursion. -/
def ray (b : Board) (f r df dr : Int) : Nat → List Nat
  | 0 => []
  | fuel + 1 =>
    match mkSq (f + df) (r + dr) with
    | none => []
    | some sq =>
      match b.pieceAt sq with
      | some _ => [sq]
      | none => sq :: ray b (f + df) (r + dr) df dr fuel

/-- The first piece met walking from (f, r) in direction (df, dr). -/
def firstPieceAlong (b : Board) (f r df dr : Int) : Nat → Option Piece
  | 0 => none
  | fuel + 1 =>
    match mkSq (f + df) (r + dr) with
    | none => none
    | some sq =>
      match b.pieceAt sq with
      | some pc => some pc
      | none => firstPieceAlong b (f + df) (r + dr) df dr fuel

/-- Does any piece of color `c` attack square `target`?  Computed by probing
    outward from the target: knight and king patterns, the two squares a
    `c`-pawn would capture from, and the first piece along each ray (rook or
    queen on rook lines, bishop or queen on diagonals). -/
def isAttacked (b : Board) (c : Color) (target : Nat) : Bool :=
  let f : Int := fileOf target
  let r : Int := rankOf target
  let probe (o : Option Nat) (pt : PieceType) : Bool :=
    match o with
    | some sq => b.pieceAt sq = some ⟨c, pt⟩
    | none => false
  (knightOffsets.any (fun d => probe (mkSq (f + d.1) (r + d.2)) .knight)) ||
  (kingOffsets.any (fun d => probe (mkSq (f + d.1) (r + d.2)) .king)) ||
  ([f - 1, f + 1].any (fun nf => probe (mkSq nf (r - pawnDir c)) .pawn)) ||
  ((slideDirs .rook).any (fun d =>
    match firstPieceAlong b f r d.1 d.2 8 with
    | some pc => pc = ⟨c, .rook⟩ ∨ pc = ⟨c, .queen⟩
    | none => false)) ||
  ((slideDirs .bishop).any (fun d =>
    match firstPieceAlong b f r d.1 d.2 8 with
    | some pc => pc = ⟨c, .bishop⟩ ∨ pc = ⟨c, .queen⟩
    | none => false))

def kingSquare (b : Board) (c : Color) : Option Nat :=
  b.squares.findIdx? (fun cell => cell = some (⟨c, .king⟩ : Piece))

def inCheck (b : Board) (c : Color) : Bool :=
  match kingSquare b c with
  | some k => isAttacked b c.other k
  | none => false

/-- Place `v` on square `sq` (functional update of the square list). -/
def setSq (l : List (Option Piece)) (sq : Nat) (v : Option Piece) : List (Option Piece) :=
  l.set sq v

/-- Apply a move without any legality check, mirroring `chess.Board.push`
    once its occupied-from-square assertion has passed: remove the moving
    piece, perform en-passant capture, place the (possibly promoted) piece,
    move the rook on castling, update castling rights, set the en-passant
    square on a double pawn push, flip the side to move.  When the
    from-square is empty the board is returned unchanged; callers guard that
    case via `Board.pushChecked`. -/
def Board.pushRaw (b : Board) (m : Move) : Board :=
  match b.pieceAt m.fromSq with
  | none => b
  | some pc =>
    let placed : Piece :=
      match m.promo with
      | some pt => ⟨pc.color, pt⟩
      | none => pc
    let sqs1 := setSq b.squares m.fromSq none
    let sqs2 :=
      if pc.ptype = PieceType.pawn ∧ b.epSquare = some m.toSq ∧
          fileOf m.toSq ≠ fileOf m.fromSq ∧ b.pieceAt m.toSq = none then
        setSq sqs1 (if pc.color = Color.white then m.toSq - 8 else m.toSq + 8) none
      else sqs1
    let sqs3 := setSq sqs2 m.toSq (some placed)
    let homeRank := rankOf m.fromSq
    let sqs4 :=
      if pc.ptype = PieceType.king ∧ fileOf m.fromSq = 4 ∧ fileOf m.toSq = 6 ∧
          rankOf m.toSq = homeRank then
        setSq (setSq sqs3 (homeRank * 8 + 7) none) (homeRank * 8 + 5) (some ⟨pc.color, PieceType.rook⟩)
      else if pc.ptype = PieceType.king ∧ fileOf m.fromSq = 4 ∧ fileOf m.toSq = 2 ∧
          rankOf m.toSq = homeRank then
        setSq (setSq sqs3 (homeRank * 8) none) (homeRank * 8 + 3) (some ⟨pc.color, PieceType.rook⟩)
      else sqs3
    let newEp : Option Nat :=
      if pc.ptype = PieceType.pawn ∧ fileOf m.toSq = fileOf m.fromSq ∧
          (rankOf m.toSq = rankOf m.fromSq + 2 ∨ rankOf m.fromSq = rankOf m.toSq + 2) then
        some ((m.fromSq + m.toSq) / 2)
      else none
    let kingMoved (c : Color) : Bool := pc.color = c ∧ pc.ptype = PieceType.king
    let touched (sq : Nat) : Bool := m.fromSq = sq ∨ m.toSq = sq
    let cr : Castling :=
      { wk := b.castling.wk && !(touched 7) && !(kingMoved .white)
        wq := b.castling.wq && !(touched 0) && !(kingMoved .white)
        bk := b.castling.bk && !(touched 63) && !(kingMoved .black)
        bq := b.castling.bq && !(touched 56) && !(kingMoved .black) }
    { squares := sqs4, turn := b.turn.other, castling := cr, epSquare := newEp }

/-- `chess.Board.push` asserts that the from-square is occupied
    (AssertionError otherwise); `none` models that exception. -/
def Board.pushChecked (b : Board) (m : Move) : Option Board :=
  if (b.pieceAt m.fromSq).isSome then some (b.pushRaw m) else none

/-- Pseudo-legal pawn moves from `sq` for color `c` (single and double
    pushes, captures, en passant, promotions to queen/rook/bishop/knight). -/
def pawnMovesFrom (b : Board) (sq : Nat) (c : Color) : List Move :=
  let f : Int := fileOf sq
  let r : Int := rankOf sq
  let d := pawnDir c
  let promoRank : Int := if c = Color.white then 7 else 0
  let startRank : Int := if c = Color.white then 1 else 6
  let withPromo (t : Nat) : List Move :=
    if (rankOf t : Int) = promoRank then
      [⟨sq, t, some .queen⟩, ⟨sq, t, some .rook⟩, ⟨sq, t, some .bishop⟩, ⟨sq, t, some .knight⟩]
    else [⟨sq, t, none⟩]
  let push1 : List Move :=
    match mkSq f (r + d) with
    | some t => if b.pieceAt t = none then withPromo t else []
    | none => []
  let push2 : List Move :=
    match mkSq f (r + d), mkSq f (r + 2 * d) with
    | some t1, some t2 =>
      if r = startRank ∧ b.pieceAt t1 = none ∧ b.pieceAt t2 = none then [⟨sq, t2, none⟩] else []
    | _, _ => []
  let caps : List Move :=
    [f - 1, f + 1].flatMap (fun nf =>
      match mkSq nf (r + d) with
      | some t =>
        match b.pieceAt t with
        | some q => if q.color ≠ c then withPromo t else []
        | none => if b.epSquare = some t then [⟨sq, t, none⟩] else []
      | none => [])
  push1 ++ push2 ++ caps

/-- Pseudo-legal single-step moves (knight and king patterns). -/
def stepMovesFrom (b : Board) (sq : Nat) (c : Color) (offs : List (Int × Int)) : List Move :=
  let f : Int := fileOf sq
  let r : Int := rankOf sq
  offs.filterMap (fun dd =>
    match mkSq (f + dd.1) (r + dd.2) with
    | some t =>
      match b.pieceAt t with
      | some q => if q.color ≠ c then some ⟨sq, t, none⟩ else none
      | none => some ⟨sq, t, none⟩
    | none => none)

/-- Pseudo-legal sliding moves (bishop, rook, queen). -/
def slideMovesFrom (b : Board) (sq : Nat) (c : Color) (pt : PieceType) : List Move :=
  let f : Int := fileOf sq
  let r : Int := rankOf sq
  (slideDirs pt).flatMap (fun dd =>
    (ray b f r dd.1 dd.2 8).filterMap (fun t =>
      match b.pieceAt t with
      | some q => if q.color ≠ c then some ⟨sq, t, none⟩ else none
      | none => some ⟨sq, t, none⟩))

def pieceMovesFrom (b : Board) (sq : Nat) (pc : Piece) : List Move :=
  match pc.ptype with
  | .pawn => pawnMovesFrom b sq pc.color
  | .knight => stepMovesFrom b sq pc.color knightOffsets
  | .king => stepMovesFrom b sq pc.color kingOffsets
  | pt => slideMovesFrom b sq pc.color pt

/-- All pseudo-legal non-castling moves for the side to move. -/
def pseudoMoves (b : Board) : List Move :=
  (List.range 64).flatMap (fun sq =>
    match b.pieceAt sq with
    | some pc => if pc.color = b.turn then pieceMovesFrom b sq pc else []
    | none => [])

/-- Castling moves for the side to move, generated only when fully legal
    (rights present, king and rook on their home squares, path empty, king
    not in, through, or into check). -/
def castlingMoves (b : Board) : List Move :=
  let c := b.turn
  let home : Nat := if c = Color.white then 0 else 56
  let kSq := home + 4
  let opp := c.other
  let rightK : Bool := if c = Color.white then b.castling.wk else b.castling.bk
  let rightQ : Bool := if c = Color.white then b.castling.wq else b.castling.bq
  let kingHome : Bool := b.pieceAt kSq = some ⟨c, .king⟩ ∧ isAttacked b opp kSq = false
  let ks : List Move :=
    if rightK ∧ kingHome ∧ b.pieceAt (home + 7) = some ⟨c, .rook⟩ ∧
        b.pieceAt (home + 5) = none ∧ b.pieceAt (home + 6) = none ∧
        isAttacked b opp (home + 5) = false ∧ isAttacked b opp (home + 6) = false then
      [⟨kSq, home + 6, none⟩]
    else []
  let qs : List Move :=
    if rightQ ∧ kingHome ∧ b.pieceAt home = some ⟨c, .rook⟩ ∧
        b.pieceAt (home + 1) = none ∧ b.pieceAt (home + 2) = none ∧ b.pieceAt (home + 3) = none ∧
        isAttacked b opp (home + 2) = false ∧ isAttacked b opp (home + 3) = false then
      [⟨kSq, home + 2, none⟩]
    else []
  ks ++ qs

/-- Legal moves (`chess.Board.legal_moves`): pseudo-legal moves that do not
    leave the mover's own king attacked, plus legal castling moves. -/
def Board.legalMoves (b : Board) : List Move :=
  (pseudoMoves b).filter (fun m => !(inCheck (b.pushRaw m) b.turn)) ++ castlingMoves b

/-! ### Coordinate (UCI) notation -/

def fileOfChar (c : Char) : Option Nat :=
  if 'a' ≤ c ∧ c ≤ 'h' then some (c.toNat - 'a'.toNat) else none

def rankOfChar (c : Char) : Option Nat :=
  if '1' ≤ c ∧ c ≤ '8' then some (c.toNat - '1'.toNat) else none

def squareOfChars (fc rc : Char) : Option Nat := do
  let f ← fileOfChar fc
  let r ← rankOfChar rc
  pure (r * 8 + f)

/-- Promotion letters accepted by `chess.Move.from_uci` (lowercase piece
    symbols; legality is checked later, not here). -/
def promoOfChar (c : Char) : Option PieceType :=
  match c with
  | 'p' => some .pawn
  | 'n' => some .knight
  | 'b' => some .bishop
  | 'r' => some .rook
  | 'q' => some .queen
  | 'k' => some .king
  | _ => none

/-- `chess.Move.from_uci`: four or five characters, valid square names,
    lowercase promotion letter, from-square distinct from to-square; `none`
    models `ValueError`. -/
def Move.fromUci (s : String) : Option Move :=
  match s.toList with
  | [a, b, c, d] => do
    let f ← squareOfChars a b
    let t ← squareOfChars c d
    if f = t then none else pure ⟨f, t, none⟩
  | [a, b, c, d, p] => do
    let f ← squareOfChars a b
    let t ← squareOfChars c d
    let pr ← promoOfChar p
    if f = t then none else pure ⟨f, t, some pr⟩
  | _ => none

def squareName (sq : Nat) : String :=
  String.mk [Char.ofNat ('a'.toNat + fileOf sq), Char.ofNat ('1'.toNat + rankOf sq)]

def promoChar (pt : PieceType) : String :=
  match pt with
  | .pawn => "p"
  | .knight => "n"
  | .bishop => "b"
  | .rook => "r"
  | .queen => "q"
  | .king => "k"

def moveUci (m : Move) : String :=
  squareName m.fromSq ++ squareName m.toSq ++ (match m.promo with
    | some pt => promoChar pt
    | none => "")

/-- `chess.Board.san(move)`: the validator computes the SAN of the expected
    move and discards the value, so only definedness is modelled faithfully:
    the library asserts the move's from-square is occupied (AssertionError
    otherwise, modelled as `none`).  The returned rendering is the move's
    coordinate form. -/
def Board.san (b : Board) (m : Move) : Option String :=
  if (b.pieceAt m.fromSq).isSome then some (moveUci m) else none

/-! ### Algebraic (SAN) notation

`chess.Board.parse_san` matches the input against
`^([NBKRQ])?([a-h])?([1-8])?[\-x]?([a-h][1-8])(=?[nbrqkNBRQK])?[\+#]?$`
(castling strings are special-cased) and then looks for the unique legal
move with the given piece type, target square, promotion and disambiguators;
zero matches (IllegalMoveError) and several (AmbiguousMoveError) both raise
ValueError, modelled as `none`.  The parser below consumes the same grammar
from the right end of the string. -/

structure SanParts where
  pt : PieceType
  fromFile : Option Nat
  fromRank : Option Nat
  target : Nat
  promo : Option PieceType
deriving DecidableEq, Repr

/-- Strip one trailing check or mate suffix (input list is reversed). -/
def stripCheckSuffix : List Char → List Char
  | c :: rest => if c = '+' ∨ c = '#' then rest else c :: rest
  | [] => []

/-- Promotion letters accepted by the SAN regex (both cases). -/
def promoSanChar (c : Char) : Option PieceType :=
  match c with
  | 'n' => some .knight
  | 'N' => some .knight
  | 'b' => some .bishop
  | 'B' => some .bishop
  | 'r' => some .rook
  | 'R' => some .rook
  | 'q' => some .queen
  | 'Q' => some .queen
  | 'k' => some .king
  | 'K' => some .king
  | _ => none

/-- Strip a trailing promotion group `=?[nbrqkNBRQK]` (input reversed). -/
def stripPromo : List Char → Option PieceType × List Char
  | c :: rest =>
    match promoSanChar c with
    | some pt =>
      match rest with
      | '=' :: r2 => (some pt, r2)
      | _ => (some pt, rest)
    | none => (none, c :: rest)
  | [] => (none, [])

def pieceLetter (c : Char) : Option PieceType :=
  match c with
  | 'N' => some .knight
  | 'B' => some .bishop
  | 'K' => some .king
  | 'R' => some .rook
  | 'Q' => some .queen
  | _ => none

/-- Decompose a (non-castling) SAN string into its regex groups. -/
def parseSanParts (s : String) : Option SanParts :=
  let r1 := stripCheckSuffix s.toList.reverse
  let (promo, r2) := stripPromo r1
  match r2 with
  | rc :: fc :: r3 => do
    let t ← squareOfChars fc rc
    let r4 :=
      match r3 with
      | c :: rest => if c = 'x' ∨ c = '-' then rest else c :: rest
      | [] => []
    let (fr, r5) :=
      match r4 with
      | c :: rest =>
        match rankOfChar c with
        | some rk => (some rk, rest)
        | none => (none, c :: rest)
      | [] => (none, [])
    let (ff, r6) :=
      match r5 with
      | c :: rest =>
        match fileOfChar c with
        | some fl => (some fl, rest)
        | none => (none, c :: rest)
      | [] => (none, [])
    let (pt, r7) :=
      match r6 with
      | c :: rest =>
        match pieceLetter c with
        | some p => (some p, rest)
        | none => (none, c :: rest)
      | [] => ((none : Option PieceType), ([] : List Char))
    match r7 with
    | [] => some ⟨pt.getD PieceType.pawn, ff, fr, t, promo⟩
    | _ => none
  | _ => none

def ownOccupied (b : Board) (sq : Nat) : Bool :=
  match b.pieceAt sq with
  | some pc => pc.color = b.turn
  | none => false

/-- `chess.Board.parse_san`: castling strings first, then the regex match
    against the unique legal move; `none` models every `ValueError`. -/
def Board.parseSan (b : Board) (san : String) : Option Move :=
  if san = "O-O" ∨ san = "O-O+" ∨ san = "O-O#" ∨ san = "0-0" ∨ san = "0-0+" ∨ san = "0-0#" then
    (castlingMoves b).find? (fun m => fileOf m.toSq = 6)
  else if san = "O-O-O" ∨ san = "O-O-O+" ∨ san = "O-O-O#" ∨ san = "0-0-0" ∨ san = "0-0-0+" ∨
      san = "0-0-0#" then
    (castlingMoves b).find? (fun m => fileOf m.toSq = 2)
  else
    match parseSanParts san with
    | none => none
    | some p =>
      if ownOccupied b p.target then none
      else
        let cands := b.legalMoves.filter (fun m =>
          (match b.pieceAt m.fromSq with
           | some pc => pc.ptype = p.pt
           | none => false) &&
          (m.toSq = p.target) &&
          (m.promo = p.promo) &&
          (match p.fromFile with
           | some f => fileOf m.fromSq = f
           | none => true) &&
          (match p.fromRank with
           | some r => rankOf m.fromSq = r
           | none => true))
        match cands with
        | [m] => some m
        | _ => none

/-! ### FEN parsing (`chess.Board(fen)` / `Board.set_fen`) -/

def pieceOfChar (c : Char) : Option Piece :=
  match c with
  | 'P' => some ⟨.white, .pawn⟩
  | 'N' => some ⟨.white, .knight⟩
  | 'B' => some ⟨.white, .bishop⟩
  | 'R' => some ⟨.white, .rook⟩
  | 'Q' => some ⟨.white, .queen⟩
  | 'K' => some ⟨.white, .king⟩
  | 'p' => some ⟨.black, .pawn⟩
  | 'n' => some ⟨.black, .knight⟩
  | 'b' => some ⟨.black, .bishop⟩
  | 'r' => some ⟨.black, .rook⟩
  | 'q' => some ⟨.black, .queen⟩
  | 'k' => some ⟨.black, .king⟩
  | _ => none

def expandRankCells : List Char → Option (List (Option Piece))
  | [] => some []
  | c :: rest =>
    match expandRankCells rest with
    | none => none
    | some tail =>
      if '1' ≤ c ∧ c ≤ '8' then some (List.replicate (c.toNat - '0'.toNat) none ++ tail)
      else
        match pieceOfChar c with
        | some pc => some (some pc :: tail)
        | none => none

/-- One FEN rank: piece letters and digit runs summing to exactly 8 cells. -/
def parseRank (s : String) : Option (List (Option Piece)) :=
  match expandRankCells s.toList with
  | some cells => if cells.length = 8 then some cells else none
  | none => none

/-- The board field of a FEN: 8 ranks separated by `/`, given from rank 8
    down to rank 1. -/
def parseBoardPart (s : String) : Option (List (Option Piece)) :=
  let rows := strSplitOn '/' s
  if rows.length = 8 then
    match rows.mapM parseRank with
    | some parsed => some (parsed.reverse.flatMap id)
    | none => none
  else none

/-- Missing FEN fields take defaults, as in `chess.Board.set_fen`
    (turn `w`, castling `-`, no en-passant square, zero counters). -/
def parseTurnPart : List String → Option (Color × List String)
  | [] => some (Color.white, [])
  | t :: r =>
    if t = "w" then some (Color.white, r)
    else if t = "b" then some (Color.black, r)
    else none

def parseCastlingField (s : String) : Option Castling :=
  if s = "-" then some ⟨false, false, false, false⟩
  else if (!s.toList.isEmpty) && s.toList.all (fun c => c = 'K' ∨ c = 'Q' ∨ c = 'k' ∨ c = 'q') then
    some ⟨s.toList.contains 'K', s.toList.contains 'Q', s.toList.contains 'k', s.toList.contains 'q'⟩
  else none

def parseCastlingPart : List String → Option (Castling × List String)
  | [] => some (⟨false, false, false, false⟩, [])
  | s :: r => (parseCastlingField s).map (fun c => (c, r))

def parseEpField (s : String) : Option (Option Nat) :=
  if s = "-" then some none
  else
    match s.toList with
    | [f, r] => (squareOfChars f r).map some
    | _ => none

def parseEpPart : List String → Option (Option Nat × List String)
  | [] => some (none, [])
  | s :: r => (parseEpField s).map (fun e => (e, r))

/-- Halfmove clock and fullmove number: validated, not stored; more than two
    remaining fields is a `ValueError`. -/
def countersOk : List String → Bool
  | [] => true
  | [h] => (strToNum h).isSome
  | [h, f] => (strToNum h).isSome && (strToNum f).isSome
  | _ => false

/-- `chess.Board(fen)`: split on whitespace, parse board, turn, castling,
    en-passant and counter fields, defaulting the missing ones; `none`
    models `ValueError`. -/
def fenToBoard (fen : String) : Option Board :=
  match strSplitWs fen with
  | [] => none
  | bp :: rest =>
    match parseBoardPart bp with
    | none => none
    | some sqs =>
      match parseTurnPart rest with
      | none => none
      | some (turn, r1) =>
        match parseCastlingPart r1 with
        | none => none
        | some (cr, r2) =>
          match parseEpPart r2 with
          | none => none
          | some (ep, r3) =>
            if countersOk r3 then some ⟨sqs, turn, cr, ep⟩ else none

/-! ## Data model (src/data/models.py) -/

/-- The `Puzzle` dataclass: `fen` is the position before the opponent's
    setup move; `moves` are UCI strings with index 0 the setup move. -/
structure Puzzle where
  puzzleId : String
  fen : String
  moves : List String
  rating : Int
  ratingDeviation : Int
  popularity : Int
  nbPlays : Int
  themes : List String
  gameUrl : String
  openingTags : List String
  pieceCount : Int
deriving DecidableEq, Repr

/-- `Puzzle.solution_moves`: all moves except the first (`moves[1:]`). -/
def Puzzle.solutionMoves (p : Puzzle) : List String :=
  p.moves.drop 1

/-! ## MoveValidator (src/core/move_validator.py) -/

/-- The mutable state of a `MoveValidator` instance: the puzzle it was built
    from, the current board, `solution_moves` and `current_move_index`. -/
structure MoveValidator where
  puzzle : Puzzle
  board : Board
  solutionMoves : List String
  currentMoveIndex : Nat
deriving DecidableEq, Repr

/-- `MoveValidator._setup_board`: build the board from the puzzle FEN and
    push `moves[0]` (the opponent's setup move).  `none` models the
    exceptions that can escape: ValueError from `chess.Board(fen)`,
    IndexError from `moves[0]` on an empty list, ValueError from
    `Move.from_uci`, and the push assertion on an empty from-square. -/
def setupBoard (p : Puzzle) : Option Board := do
  let b ← fenToBoard p.fen
  let m0s ← p.moves.head?
  let m0 ← Move.fromUci m0s
  b.pushChecked m0

/-- `MoveValidator.__init__`: store the puzzle, set up the board, take
    `solution_moves` from the puzzle and start the cursor at 0. -/
def MoveValidator.init (p : Puzzle) : Option MoveValidator :=
  (setupBoard p).map (fun b => ⟨p, b, p.solutionMoves, 0⟩)

/-- `MoveValidator.is_complete`. -/
def MoveValidator.isComplete (v : MoveValidator) : Bool :=
  v.solutionMoves.length ≤ v.currentMoveIndex

/-- `MoveValidator.get_current_board` (the Python copy is irrelevant for a
    functional state). -/
def MoveValidator.getCurrentBoard (v : MoveValidator) : Board :=
  v.board

/-- `MoveValidator.get_current_solution_move`. -/
def MoveValidator.getCurrentSolutionMove (v : MoveValidator) : Option String :=
  if v.solutionMoves.length ≤ v.currentMoveIndex then none
  else some (v.solutionMoves.getD v.currentMoveIndex "")

/-- `MoveValidator.get_moves_remaining`: `max(0, len - index)`. -/
def MoveValidator.getMovesRemaining (v : MoveValidator) : Int :=
  max 0 ((v.solutionMoves.length : Int) - (v.currentMoveIndex : Int))

/-- `MoveValidator.reset`: rebuild the board and zero the cursor. -/
def MoveValidator.reset (v : MoveValidator) : Option MoveValidator :=
  (setupBoard v.puzzle).map (fun b => { v with board := b, currentMoveIndex := 0 })

/-- `MoveValidator._parse_move`: strip the input, try SAN, then UCI with a
    legality re-check; `none` models the InvalidMoveError the caller
    catches. -/
def parseMove (b : Board) (userInput : String) : Option Move :=
  let s := strTrim userInput
  match b.parseSan s with
  | some m => some m
  | none =>
    match Move.fromUci s with
    | some m => if m ∈ b.legalMoves then some m else none
    | none => none

/-- The InvalidMoveError message built in `_parse_move` (from the stripped
    input). -/
def invalidFormatMessage (userInput : String) : String :=
  "Invalid move format: \x27" ++ strTrim userInput ++ "\x27. " ++
    "Use algebraic notation like \x27Nf3\x27, \x27e4\x27, \x27Qxd5\x27, or UCI like \x27g1f3\x27"

/-- `MoveValidator.validate_move`, returning the post-call state together
    with either the `(is_correct, feedback)` pair or an uncaught exception
    (`Except.error`).  The error cases mirror Python exactly: a malformed
    expected UCI string raises ValueError, `board.san` and `board.push`
    assert the from-square is occupied.  (On an exception inside a push the
    Python board may additionally be left partially mutated; no claim
    observes the board after an uncaught exception.) -/
def MoveValidator.validateMove (v : MoveValidator) (userInput : String) :
    MoveValidator × Except String (Bool × String) :=
  match parseMove v.board userInput with
  | none => (v, Except.ok (false, invalidFormatMessage userInput))
  | some move =>
    if move ∈ v.board.legalMoves then
      if v.solutionMoves.length ≤ v.currentMoveIndex then
        (v, Except.ok (false, "Puzzle already complete!"))
      else
        match Move.fromUci (v.solutionMoves.getD v.currentMoveIndex "") with
        | none => (v, Except.error "ValueError: expected solution move is not valid UCI")
        | some expectedMove =>
          if move = expectedMove then
            match v.board.pushChecked move with
            | none => (v, Except.error "AssertionError: push from empty square")
            | some b1 =>
              let v1 : MoveValidator :=
                { v with board := b1, currentMoveIndex := v.currentMoveIndex + 1 }
              if v1.isComplete then (v1, Except.ok (true, "Puzzle solved! Well done!"))
              else if v1.currentMoveIndex < v1.solutionMoves.length then
                match Move.fromUci (v1.solutionMoves.getD v1.currentMoveIndex "") with
                | none => (v1, Except.error "ValueError: opponent solution move is not valid UCI")
                | some opponentMove =>
                  match v1.board.pushChecked opponentMove with
                  | none => (v1, Except.error "AssertionError: push from empty square")
                  | some b2 =>
                    let v2 : MoveValidator :=
                      { v1 with board := b2, currentMoveIndex := v1.currentMoveIndex + 1 }
                    if v2.isComplete then (v2, Except.ok (true, "Puzzle solved! Well done!"))
                    else (v2, Except.ok (true, "Correct! Continue..."))
              else (v1, Except.ok (true, "Puzzle solved! Well done!"))
          else
            match v.board.san expectedMove with
            | none => (v, Except.error "AssertionError: san of move from empty square")
            | some _ =>
              (v, Except.ok (false, "Incorrect. Try again or type \x27hint\x27 for help."))
    else
      (v, Except.ok (false, "Illegal move. That move is not allowed in this position."))

/-! ## Puzzle selection (src/core/puzzle_selector.py, src/config/constants.py,
src/config/settings.py, src/core/puzzle_manager.py) -/

/-- `ENDGAME_PIECE_THRESHOLD` from src/config/constants.py. -/
def ENDGAME_PIECE_THRESHOLD : Int := 12

/-- `ENDGAME_THEMES` from src/config/constants.py. -/
def ENDGAME_THEMES : List String :=
  ["endgame", "mateIn1", "mateIn2", "mateIn3", "mateIn4", "mateIn5",
   "promotion", "queenEndgame", "rookEndgame", "bishopEndgame",
   "knightEndgame", "pawnEndgame"]

/-- `OPENING_THEMES` from src/config/constants.py. -/
def OPENING_THEMES : List String :=
  ["opening", "openingVariation", "trap"]

/-- `Settings.get_difficulty_range` together with the `Difficulty` enum:
    `none` models the ValueError raised for a level outside 1..5. -/
def getDifficultyRange (d : Int) : Option (Int × Int) :=
  if d = 1 then some (600, 1200)
  else if d = 2 then some (1200, 1600)
  else if d = 3 then some (1600, 2000)
  else if d = 4 then some (2000, 2400)
  else if d = 5 then some (2400, 3000)
  else none

/-- A row of the `puzzles` table as the selector queries see it:
    the scalar columns plus the theme names reachable for this puzzle
    through the `puzzle_themes`/`themes` join tables. -/
structure PuzzleRow where
  puzzleId : String
  fen : String
  movesStr : String
  rating : Int
  ratingDeviation : Int
  popularity : Int
  nbPlays : Int
  gameUrl : String
  openingTags : String
  pieceCount : Int
  themes : List String
deriving DecidableEq, Repr

/-- The join rows produced for a puzzle by
    `puzzles p LEFT JOIN puzzle_themes pt ... LEFT JOIN themes t ...`:
    one row per theme, or a single row with a NULL `t.theme_name` when the
    puzzle has no themes. -/
def joinRows (p : PuzzleRow) : List (Option String) :=
  if p.themes.isEmpty then [none] else p.themes.map some

/-- `PuzzleSelector._build_phase_filter`, as the predicate the produced SQL
    clause evaluates on one join row (`t` is that row's `t.theme_name`):
    `opening` needs a non-empty `opening_tags` column or an opening theme on
    the row; `endgame` needs `piece_count` under the threshold or an endgame
    theme on the row; anything else is treated as middlegame and needs
    `piece_count` at least the threshold and a row theme that is NULL or not
    an endgame theme. -/
def buildPhaseFilter (gamePhase : String) (p : PuzzleRow) (t : Option String) : Bool :=
  if gamePhase = "opening" then
    (p.openingTags ≠ "") ||
      (match t with
       | some th => OPENING_THEMES.contains th
       | none => false)
  else if gamePhase = "endgame" then
    (p.pieceCount < ENDGAME_PIECE_THRESHOLD) ||
      (match t with
       | some th => ENDGAME_THEMES.contains th
       | none => false)
  else
    (ENDGAME_PIECE_THRESHOLD ≤ p.pieceCount) &&
      (match t with
       | some th => !(ENDGAME_THEMES.contains th)
       | none => true)

/-- The WHERE clause `_query_puzzle` assembles, evaluated on one join row:
    `p.rating BETWEEN ? AND ?` (inclusive on both ends), the phase clause
    (only when `game_phase` is truthy), `t.theme_name = ?` (only when
    `theme` is truthy; false on a NULL row), and
    `p.puzzle_id NOT IN (...)` (only when excluding and the solved set is
    non-empty). -/
def rowWhere (rng : Option (Int × Int)) (gamePhase : Option String) (solved : List String)
    (excludeSolved : Bool) (theme : Option String) (p : PuzzleRow) (t : Option String) : Bool :=
  (match rng with
   | some lohi => (lohi.1 ≤ p.rating) && (p.rating ≤ lohi.2)
   | none => true) &&
  (match gamePhase with
   | some gp => if gp ≠ "" then buildPhaseFilter gp p t else true
   | none => true) &&
  (match theme with
   | some th =>
     if th ≠ "" then
       (match t with
        | some rowTheme => rowTheme = th
        | none => false)
     else true
   | none => true) &&
  (if excludeSolved ∧ ¬ solved.isEmpty then !(solved.contains p.puzzleId) else true)

/-- A puzzle satisfies the query when some join row satisfies the WHERE
    clause (`SELECT DISTINCT p.* ... LEFT JOIN ... WHERE ...`). -/
def matchesQuery (rng : Option (Int × Int)) (gamePhase : Option String) (solved : List String)
    (excludeSolved : Bool) (theme : Option String) (p : PuzzleRow) : Bool :=
  (joinRows p).any (fun t => rowWhere rng gamePhase solved excludeSolved theme p t)

/-- The store query underlying `_query_puzzle`, with `ORDER BY RANDOM()
    LIMIT 1` abstracted to the first matching row of the store list: the
    result is `none` exactly when no row matches, which is the only property
    of the random choice the specification uses. -/
def queryPuzzleRows (db : List PuzzleRow) (rng : Option (Int × Int)) (gamePhase : Option String)
    (solved : List String) (excludeSolved : Bool) (theme : Option String) : Option PuzzleRow :=
  db.find? (fun p => matchesQuery rng gamePhase solved excludeSolved theme p)

/-- `PuzzleSelector._query_puzzle`: resolve the difficulty to a rating
    range (propagating the ValueError of `get_difficulty_range` for a level
    outside 1..5) and run the store query. -/
def queryPuzzle (db : List PuzzleRow) (difficulty : Option Int) (gamePhase : Option String)
    (solved : List String) (excludeSolved : Bool) (theme : Option String) :
    Except String (Option PuzzleRow) :=
  match difficulty with
  | none => Except.ok (queryPuzzleRows db none gamePhase solved excludeSolved theme)
  | some d =>
    match getDifficultyRange d with
    | none => Except.error "ValueError: Difficulty must be 1-5"
    | some rng => Except.ok (queryPuzzleRows db (some rng) gamePhase solved excludeSolved theme)

/-- Python truthiness of the optional theme argument (`if theme:`). -/
def themeTruthy : Option String → Bool
  | none => false
  | some s => s ≠ ""

/-- `PuzzleSelector.select_puzzle`: the progressive fallback cascade.
    Tier by tier: exact query excluding solved ids; the same ignoring the
    solved set (skipped when the set is empty); difficulty-1 then
    difficulty+1 when inside 1..5; dropped phase; dropped theme (only when
    a theme was supplied); fully unconstrained; finally
    `PuzzleNotFoundError`, modelled as `Except.error`. -/
def selectPuzzle (db : List PuzzleRow) (difficulty : Int) (gamePhase : Option String)
    (solvedPuzzleIds : List String) (theme : Option String) : Except String PuzzleRow :=
  match queryPuzzle db (some difficulty) gamePhase solvedPuzzleIds true theme with
  | Except.error e => Except.error e
  | Except.ok (some p) => Except.ok p
  | Except.ok none =>
    match (if solvedPuzzleIds.isEmpty then Except.ok none
           else queryPuzzle db (some difficulty) gamePhase solvedPuzzleIds false theme) with
    | Except.error e => Except.error e
    | Except.ok (some p) => Except.ok p
    | Except.ok none =>
      match (if 1 ≤ difficulty - 1 ∧ difficulty - 1 ≤ 5 then
               queryPuzzle db (some (difficulty - 1)) gamePhase solvedPuzzleIds false theme
             else Except.ok none) with
      | Except.error e => Except.error e
      | Except.ok (some p) => Except.ok p
      | Except.ok none =>
        match (if 1 ≤ difficulty + 1 ∧ difficulty + 1 ≤ 5 then
                 queryPuzzle db (some (difficulty + 1)) gamePhase solvedPuzzleIds false theme
               else Except.ok none) with
        | Except.error e => Except.error e
        | Except.ok (some p) => Except.ok p
        | Except.ok none =>
          match queryPuzzle db (some difficulty) none solvedPuzzleIds false theme with
          | Except.error e => Except.error e
          | Except.ok (some p) => Except.ok p
          | Except.ok none =>
            match (if themeTruthy theme then
                     queryPuzzle db (some difficulty) gamePhase solvedPuzzleIds false none
                   else Except.ok none) with
            | Except.error e => Except.error e
            | Except.ok (some p) => Except.ok p
            | Except.ok none =>
              match queryPuzzle db none none solvedPuzzleIds false none with
              | Except.error e => Except.error e
              | Except.ok (some p) => Except.ok p
              | Except.ok none => Except.error "No puzzles available in database"

/-- `PuzzleManager._rating_to_difficulty`. -/
def ratingToDifficulty (rating : Int) : Int :=
  if rating < 1200 then 1
  else if rating < 1600 then 2
  else if rating < 2000 then 3
  else if rating < 2400 then 4
  else 5

/-! ## Concrete instances used by witnesses and counterexamples -/

/-- The board-only FEN of the starting position, as in spec section 8. -/
def startFen : String := "rnbqkbnr/pppppppp/8/8/8/8/PPPPPPPP/RNBQKBNR"

/-- The two-move scenario puzzle of spec section 8: setup `e2e4`, single
    solution move `e7e5`. -/
def scenarioPuzzle : Puzzle :=
  { puzzleId := "scenario", fen := startFen, moves := ["e2e4", "e7e5"], rating := 1000,
    ratingDeviation := 50, popularity := 100, nbPlays := 500, themes := [], gameUrl := "",
    openingTags := [], pieceCount := 32 }

def emptyBoard : Board :=
  ⟨List.replicate 64 none, .white, ⟨false, false, false, false⟩, none⟩

/-- The validator freshly constructed on the scenario puzzle (the `getD`
    default is never used: construction succeeds). -/
def scenarioValidator : MoveValidator :=
  (MoveValidator.init scenarioPuzzle).getD ⟨scenarioPuzzle, emptyBoard, [], 0⟩

/-- A four-move puzzle (setup plus three solution moves) on the same
    opening line. -/
def fourMovePuzzle : Puzzle :=
  { puzzleId := "fourmove", fen := startFen, moves := ["e2e4", "e7e5", "g1f3", "b8c6"],
    rating := 1000, ratingDeviation := 50, popularity := 100, nbPlays := 500, themes := [],
    gameUrl := "", openingTags := [], pieceCount := 32 }

def fourMoveValidator : MoveValidator :=
  (MoveValidator.init fourMovePuzzle).getD ⟨fourMovePuzzle, emptyBoard, [], 0⟩

/-- First non-`none` entry of a list of optional results. -/
def firstSome {α : Type} : List (Option α) → Option α
  | [] => none
  | none :: rest => firstSome rest
  | some a :: _ => some a

/-- Modelled from the spec (section 4.1, fallback cascade): the six query
    tiers in their stated order, each evaluated against the store; a tier
    that is skipped (an adjacent difficulty outside 1..5, or the drop-theme
    tier when no theme was supplied) contributes `none`. -/
def specFallbackTiers (db : List PuzzleRow) (d : Int) (gamePhase : Option String)
    (solved : List String) (theme : Option String) : List (Option PuzzleRow) :=
  [queryPuzzleRows db (getDifficultyRange d) gamePhase solved true theme,
   queryPuzzleRows db (getDifficultyRange d) gamePhase solved false theme,
   (if 1 ≤ d - 1 ∧ d - 1 ≤ 5 then
     queryPuzzleRows db (getDifficultyRange (d - 1)) gamePhase solved false theme else none),
   (if 1 ≤ d + 1 ∧ d + 1 ≤ 5 then
     queryPuzzleRows db (getDifficultyRange (d + 1)) gamePhase solved false theme else none),
   queryPuzzleRows db (getDifficultyRange d) none solved false theme,
   (if themeTruthy theme then
     queryPuzzleRows db (getDifficultyRange d) gamePhase solved false none else none),
   queryPuzzleRows db none none solved false none]

/-- Modelled from the spec: the middlegame phase predicate exactly as stated
    in section 4.1 — `piece_count` at least the threshold AND the puzzle's
    theme set does not intersect the endgame keyword set. -/
def specMiddlegamePredicate (p : PuzzleRow) : Bool :=
  (ENDGAME_PIECE_THRESHOLD ≤ p.pieceCount) &&
    p.themes.all (fun th => !(ENDGAME_THEMES.contains th))

/-- A middlegame-rated puzzle carrying both an endgame theme and a
    non-endgame theme: the failing input for C4. -/
def mixedThemeRow : PuzzleRow :=
  { puzzleId := "mixed", fen := "", movesStr := "", rating := 1800, ratingDeviation := 50,
    popularity := 0, nbPlays := 0, gameUrl := "", openingTags := "", pieceCount := 20,
    themes := ["endgame", "fork"] }

/-- A puzzle sitting exactly on the 1200 rating boundary: the failing input
    for C5. -/
def boundaryRow : PuzzleRow :=
  { puzzleId := "boundary", fen := "", movesStr := "", rating := 1200, ratingDeviation := 50,
    popularity := 0, nbPlays := 0, gameUrl := "", openingTags := "", pieceCount := 20,
    themes := ["fork"] }

/-- A generic row used to instantiate the selector theorems. -/
def sampleRow : PuzzleRow :=
  { puzzleId := "sample", fen := "", movesStr := "", rating := 1400, ratingDeviation := 50,
    popularity := 0, nbPlays := 0, gameUrl := "", openingTags := "", pieceCount := 20,
    themes := ["fork"] }


/-- A puzzle record with fewer than 2 moves (C9). -/
def oneMovePuzzle : Puzzle :=
  { puzzleId := "onemove", fen := startFen, moves := ["e2e4"], rating := 1000,
    ratingDeviation := 50, popularity := 100, nbPlays := 500, themes := [], gameUrl := "",
    openingTags := [], pieceCount := 32 }

/-- A puzzle whose setup move is well-formed UCI but illegal in its own FEN
    (a pawn jumping from e2 to e5): C9. -/
def illegalSetupPuzzle : Puzzle :=
  { puzzleId := "illegalsetup", fen := startFen, moves := ["e2e5", "e7e5"], rating := 1000,
    ratingDeviation := 50, popularity := 100, nbPlays := 500, themes := [], gameUrl := "",
    openingTags := [], pieceCount := 32 }

/-- The scenario validator driven to its terminal state. -/
def completedScenarioValidator : MoveValidator :=
  { scenarioValidator with currentMoveIndex := 1 }

/-- The parsed starting position (the `getD` default is never used). -/
def startBoard : Board := (fenToBoard startFen).getD emptyBoard

/-! ## Supporting lemmas -/

set_option maxRecDepth 8000

/-- A move returned by the SAN parser is legal: both castling branches pick
    from `castlingMoves` and the regex branch filters `legalMoves`. -/
theorem parseSan_legal {b : Board} {s : String} {m : Move}
    (h : b.parseSan s = some m) : m ∈ b.legalMoves := by
  unfold Board.parseSan at h
  split at h
  · exact List.mem_append_right _ (List.mem_of_find?_eq_some h)
  · split at h
    · exact List.mem_append_right _ (List.mem_of_find?_eq_some h)
    · cases hp : parseSanParts s with
      | none => rw [hp] at h; cases h
      | some parts =>
        rw [hp] at h
        simp only at h
        split at h
        · cases h
        · split at h
          next m1 hc =>
            cases h
            have hm := List.mem_singleton.mpr (rfl : m = m)
            rw [← hc] at hm
            exact (List.mem_filter.mp hm).1
          next => cases h

/-- A move returned by `_parse_move` is legal in the current position. -/
theorem parseMove_legal {b : Board} {inp : String} {m : Move}
    (h : parseMove b inp = some m) : m ∈ b.legalMoves := by
  simp only [parseMove] at h
  cases hs : b.parseSan (strTrim inp) with
  | some m2 =>
    rw [hs] at h
    cases h
    exact parseSan_legal hs
  | none =>
    rw [hs] at h
    simp only at h
    cases hu : Move.fromUci (strTrim inp) with
    | none => rw [hu] at h; cases h
    | some m2 =>
      rw [hu] at h
      simp only at h
      by_cases hm : m2 ∈ b.legalMoves
      · rw [if_pos hm] at h; cases h; exact hm
      · rw [if_neg hm] at h; cases h

/-- Submitting the correct final solution move: the move is pushed, the
    cursor reaches the end, the call reports completion. -/
theorem validateMove_correct_last (v : MoveValidator) (input : String) (m : Move)
    (hp : parseMove v.board input = some m)
    (hexp : Move.fromUci (v.solutionMoves.getD v.currentMoveIndex "") = some m)
    (hocc : (v.board.pieceAt m.fromSq).isSome = true)
    (hlast : v.currentMoveIndex + 1 = v.solutionMoves.length) :
    v.validateMove input =
      ({ v with board := v.board.pushRaw m, currentMoveIndex := v.currentMoveIndex + 1 },
        Except.ok (true, "Puzzle solved! Well done!")) := by
  have hleg : m ∈ v.board.legalMoves := parseMove_legal hp
  have hnle : ¬ (v.solutionMoves.length ≤ v.currentMoveIndex) := by omega
  have hcomp : (MoveValidator.isComplete { v with board := v.board.pushRaw m, currentMoveIndex := v.currentMoveIndex + 1 }) = true := by
    simp only [MoveValidator.isComplete, decide_eq_true_eq]
    omega
  simp only [MoveValidator.validateMove, hp, hleg, if_true, hnle, if_false, hexp,
    Board.pushChecked, hocc, if_pos rfl, hcomp]

/-- Submitting a correct non-final solution move: the move is pushed, the
    scripted reply is pushed, the cursor advances twice, the call reports
    completion exactly when the cursor reaches the end. -/
theorem validateMove_correct_mid (v : MoveValidator) (input : String) (m m2 : Move)
    (hp : parseMove v.board input = some m)
    (hexp : Move.fromUci (v.solutionMoves.getD v.currentMoveIndex "") = some m)
    (hocc : (v.board.pieceAt m.fromSq).isSome = true)
    (hmid : v.currentMoveIndex + 1 < v.solutionMoves.length)
    (hnext : Move.fromUci (v.solutionMoves.getD (v.currentMoveIndex + 1) "") = some m2)
    (hocc2 : ((v.board.pushRaw m).pieceAt m2.fromSq).isSome = true) :
    v.validateMove input =
      ({ v with board := (v.board.pushRaw m).pushRaw m2, currentMoveIndex := v.currentMoveIndex + 2 },
        Except.ok (true,
          if v.currentMoveIndex + 2 = v.solutionMoves.length then "Puzzle solved! Well done!"
          else "Correct! Continue...")) := by
  have hleg : m ∈ v.board.legalMoves := parseMove_legal hp
  have hnle : ¬ (v.solutionMoves.length ≤ v.currentMoveIndex) := by omega
  have hnc1 : (MoveValidator.isComplete { v with board := v.board.pushRaw m, currentMoveIndex := v.currentMoveIndex + 1 }) = false := by
    simp only [MoveValidator.isComplete, decide_eq_false_iff_not]
    omega
  simp only [MoveValidator.validateMove, hp, hleg, if_true, hnle, if_false, hexp,
    Board.pushChecked, hocc, if_pos rfl, hnc1, hmid, hnext, hocc2, MoveValidator.isComplete]
  by_cases hend : v.currentMoveIndex + 2 = v.solutionMoves.length
  · simp [hend, hmid]
  · have hlt2 : ¬ (v.solutionMoves.length ≤ v.currentMoveIndex + 1 + 1) := by omega
    simp [hend, hmid, hlt2]

/-- `validate_move` never touches `solution_moves` and keeps the cursor
    within bounds. -/
theorem validateMove_fst_spec (w : MoveValidator) (input : String) :
    ((w.validateMove input).1.solutionMoves = w.solutionMoves) ∧
    (w.currentMoveIndex ≤ w.solutionMoves.length →
      (w.validateMove input).1.currentMoveIndex ≤ (w.validateMove input).1.solutionMoves.length) := by
  constructor
  · simp only [MoveValidator.validateMove]
    repeat' split
    all_goals rfl
  · intro hbound
    simp only [MoveValidator.validateMove]
    repeat' split
    all_goals simp only
    all_goals simp_all only [MoveValidator.isComplete, decide_eq_true_eq,
      decide_eq_false_iff_not, not_le, not_lt]
    all_goals omega

/-- Once the puzzle is complete every further `validate_move` call rejects
    the input and leaves the state unchanged. -/
theorem validateMove_complete_noop (w : MoveValidator) (input : String)
    (hc : w.isComplete = true) :
    ∃ msg, w.validateMove input = (w, Except.ok (false, msg)) := by
  have hle : w.solutionMoves.length ≤ w.currentMoveIndex := by
    simpa [MoveValidator.isComplete] using hc
  simp only [MoveValidator.validateMove]
  repeat' split
  all_goals exact ⟨_, rfl⟩

theorem getDifficultyRange_isSome {d : Int} (h1 : 1 ≤ d) (h5 : d ≤ 5) :
    ∃ rng, getDifficultyRange d = some rng := by
  have hd : d = 1 ∨ d = 2 ∨ d = 3 ∨ d = 4 ∨ d = 5 := by omega
  rcases hd with h | h | h | h | h <;> subst h <;> exact ⟨_, rfl⟩

/-- A difficulty inside 1..5 resolves to its rating range and the query
    succeeds. -/
theorem queryPuzzle_valid (db : List PuzzleRow) {d : Int} (gamePhase : Option String)
    (solved : List String) (excl : Bool) (theme : Option String) (h1 : 1 ≤ d) (h5 : d ≤ 5) :
    queryPuzzle db (some d) gamePhase solved excl theme =
      Except.ok (queryPuzzleRows db (getDifficultyRange d) gamePhase solved excl theme) := by
  obtain ⟨rng, hrng⟩ := getDifficultyRange_isSome h1 h5
  simp [queryPuzzle, hrng]

/-- A guarded adjacent-difficulty or drop-theme tier, rewritten into
    `Except.ok` form. -/
theorem queryPuzzle_guard (db : List PuzzleRow) (c : Prop) [Decidable c] (dd : Int)
    (gamePhase : Option String) (solved : List String) (excl : Bool) (theme : Option String)
    (h : c → 1 ≤ dd ∧ dd ≤ 5) :
    (if c then queryPuzzle db (some dd) gamePhase solved excl theme else Except.ok none) =
      Except.ok (if c then
        queryPuzzleRows db (getDifficultyRange dd) gamePhase solved excl theme else none) := by
  split
  next hc => exact queryPuzzle_valid db gamePhase solved excl theme (h hc).1 (h hc).2
  next hc => rfl

theorem find?_congr {α : Type} {p q : α → Bool} (h : ∀ a, p a = q a) :
    ∀ l : List α, l.find? p = l.find? q
  | [] => rfl
  | a :: t => by
    simp only [List.find?, h a, find?_congr h t]

/-- With an empty exclusion set the `NOT IN` clause is not added, so the
    excluding and non-excluding queries coincide. -/
theorem queryPuzzleRows_exclude_of_empty (db : List PuzzleRow) (rng : Option (Int × Int))
    (gamePhase : Option String) (theme : Option String) :
    queryPuzzleRows db rng gamePhase [] true theme =
      queryPuzzleRows db rng gamePhase [] false theme := by
  unfold queryPuzzleRows
  apply find?_congr
  intro p
  unfold matchesQuery
  have hfun : (fun t => rowWhere rng gamePhase [] true theme p t) =
      (fun t => rowWhere rng gamePhase [] false theme p t) := by
    funext t
    simp [rowWhere]
  rw [hfun]

/-- The fallback cascade implements exactly the spec tier list: the result
    is the first non-empty tier, else the not-found error. -/
theorem selectPuzzle_eq_firstSome (db : List PuzzleRow) (d : Int) (gamePhase : Option String)
    (solved : List String) (theme : Option String) (hd1 : 1 ≤ d) (hd5 : d ≤ 5) :
    selectPuzzle db d gamePhase solved theme =
      (match firstSome (specFallbackTiers db d gamePhase solved theme) with
        | some p => Except.ok p
        | none => Except.error "No puzzles available in database") := by
  unfold selectPuzzle specFallbackTiers
  rw [queryPuzzle_valid db gamePhase solved true theme hd1 hd5,
    queryPuzzle_valid db none solved false theme hd1 hd5,
    queryPuzzle_guard db _ (d - 1) gamePhase solved false theme (fun hc => hc),
    queryPuzzle_guard db _ (d + 1) gamePhase solved false theme (fun hc => hc)]
  rw [show (if themeTruthy theme then
        queryPuzzle db (some d) gamePhase solved false none else Except.ok none) =
      Except.ok (if themeTruthy theme then
        queryPuzzleRows db (getDifficultyRange d) gamePhase solved false none else none) from
    queryPuzzle_guard db _ d gamePhase solved false none (fun _ => ⟨hd1, hd5⟩)]
  rw [show queryPuzzle db none none solved false none =
      Except.ok (queryPuzzleRows db none none solved false none) from rfl]
  by_cases hs : solved.isEmpty
  · have hnil : solved = [] := by simpa [List.isEmpty_iff] using hs
    subst hnil
    simp only [List.isEmpty_nil, eq_self_iff_true, if_true]
    rw [queryPuzzleRows_exclude_of_empty db (getDifficultyRange d) gamePhase theme]
    generalize queryPuzzleRows db (getDifficultyRange d) gamePhase [] false theme = t1
    generalize (if 1 ≤ d - 1 ∧ d - 1 ≤ 5 then
      queryPuzzleRows db (getDifficultyRange (d - 1)) gamePhase [] false theme else none) = t3
    generalize (if 1 ≤ d + 1 ∧ d + 1 ≤ 5 then
      queryPuzzleRows db (getDifficultyRange (d + 1)) gamePhase [] false theme else none) = t4
    generalize queryPuzzleRows db (getDifficultyRange d) none [] false theme = t5
    generalize (if themeTruthy theme then
      queryPuzzleRows db (getDifficultyRange d) gamePhase [] false none else none) = t6
    generalize queryPuzzleRows db none none [] false none = t7
    cases t1 <;> cases t3 <;> cases t4 <;> cases t5 <;> cases t6 <;> cases t7 <;>
      simp [firstSome]
  · rw [if_neg hs, queryPuzzle_valid db gamePhase solved false theme hd1 hd5]
    generalize queryPuzzleRows db (getDifficultyRange d) gamePhase solved true theme = t1
    generalize queryPuzzleRows db (getDifficultyRange d) gamePhase solved false theme = t2
    generalize (if 1 ≤ d - 1 ∧ d - 1 ≤ 5 then
      queryPuzzleRows db (getDifficultyRange (d - 1)) gamePhase solved false theme else none) = t3
    generalize (if 1 ≤ d + 1 ∧ d + 1 ≤ 5 then
      queryPuzzleRows db (getDifficultyRange (d + 1)) gamePhase solved false theme else none) = t4
    generalize queryPuzzleRows db (getDifficultyRange d) none solved false theme = t5
    generalize (if themeTruthy theme then
      queryPuzzleRows db (getDifficultyRange d) gamePhase solved false none else none) = t6
    generalize queryPuzzleRows db none none solved false none = t7
    cases t1 <;> cases t2 <;> cases t3 <;> cases t4 <;> cases t5 <;> cases t6 <;> cases t7 <;>
      simp [firstSome]

theorem firstSome_eq_none {α : Type} : ∀ {l : List (Option α)}, firstSome l = none →
    ∀ o ∈ l, o = none
  | [], _, o, ho => absurd ho (List.not_mem_nil o)
  | none :: rest, h, o, ho => by
    rcases List.mem_cons.mp ho with h1 | h1
    · exact h1
    · exact firstSome_eq_none (by simpa [firstSome] using h) o h1
  | some a :: rest, h, o, ho => by simp [firstSome] at h

/-- Folding a per-join-row predicate back to a per-theme predicate. -/
theorem any_map_some_match (f : String → Bool) : ∀ (l : List String),
    ((List.map some l).any fun t =>
        match t with
        | some th => f th
        | none => false) = l.any f
  | [] => rfl
  | b :: t => by
    simp only [List.map_cons, List.any_cons, any_map_some_match f t]

/-! ## Claims -/

/-- C1: for a `MoveValidator` that is not complete, submitting the move equal
to `solution_moves[cursor]` (same from-square, to-square and promotion piece)
applies it to the board and increments the cursor; if the cursor then equals
`len(solution_moves)` the call reports success with the completion message
and `is_complete()` becomes true; otherwise the opponent's scripted reply is
auto-applied and the cursor incremented a second time, the call reporting
completion exactly when this second increment reaches the end and
success-continue otherwise. -/
theorem C1_correct_move_state_machine (v : MoveValidator) (input : String) (m : Move)
    (_hnc : v.isComplete = false)
    (hp : parseMove v.board input = some m)
    (hexp : Move.fromUci (v.solutionMoves.getD v.currentMoveIndex "") = some m)
    (hocc : (v.board.pieceAt m.fromSq).isSome = true) :
    (v.currentMoveIndex + 1 = v.solutionMoves.length →
      v.validateMove input =
        ({ v with board := v.board.pushRaw m, currentMoveIndex := v.currentMoveIndex + 1 },
          Except.ok (true, "Puzzle solved! Well done!")) ∧
      (MoveValidator.isComplete { v with board := v.board.pushRaw m, currentMoveIndex := v.currentMoveIndex + 1 }) = true) ∧
    (v.currentMoveIndex + 1 < v.solutionMoves.length →
      ∀ m2 : Move, Move.fromUci (v.solutionMoves.getD (v.currentMoveIndex + 1) "") = some m2 →
        ((v.board.pushRaw m).pieceAt m2.fromSq).isSome = true →
        v.validateMove input =
          ({ v with board := (v.board.pushRaw m).pushRaw m2, currentMoveIndex := v.currentMoveIndex + 2 },
            Except.ok (true,
              if v.currentMoveIndex + 2 = v.solutionMoves.length then "Puzzle solved! Well done!"
              else "Correct! Continue...")) ∧
        ((MoveValidator.isComplete { v with board := (v.board.pushRaw m).pushRaw m2, currentMoveIndex := v.currentMoveIndex + 2 }) = true ↔
          v.solutionMoves.length ≤ v.currentMoveIndex + 2)) := by
  constructor
  · intro hlast
    refine ⟨validateMove_correct_last v input m hp hexp hocc hlast, ?_⟩
    simp only [MoveValidator.isComplete, decide_eq_true_eq]
    omega
  · intro hmid m2 hnext hocc2
    refine ⟨validateMove_correct_mid v input m m2 hp hexp hocc hmid hnext hocc2, ?_⟩
    simp only [MoveValidator.isComplete, decide_eq_true_eq]

theorem C1_witness :
    scenarioValidator.isComplete = false ∧
    scenarioValidator.validateMove "e7e5" =
      ({ scenarioValidator with board := scenarioValidator.board.pushRaw ⟨52, 36, none⟩, currentMoveIndex := 1 },
        Except.ok (true, "Puzzle solved! Well done!")) := by
  have h := C1_correct_move_state_machine scenarioValidator "e7e5" ⟨52, 36, none⟩ (by decide)
    (by decide) (by decide) (by decide)
  exact ⟨by decide, (h.1 (by decide)).1⟩

/-- C2: an input that fails to parse as SAN or coordinate notation, or parses
to a move illegal in the current position, or parses to a legal move
different from the expected solution move, is rejected with
`accepted = false` and a message — never an uncaught exception — and leaves
the cursor, the board and `is_complete()` unchanged (the post-call state is
the unchanged validator). -/
theorem C2_rejection_is_safe (v : MoveValidator) (input : String) :
    (parseMove v.board input = none →
      v.validateMove input = (v, Except.ok (false, invalidFormatMessage input))) ∧
    (∀ m : Move, parseMove v.board input = some m → m ∉ v.board.legalMoves →
      v.validateMove input = (v, Except.ok (false, "Illegal move. That move is not allowed in this position."))) ∧
    (∀ m em : Move, parseMove v.board input = some m → v.isComplete = false →
      Move.fromUci (v.solutionMoves.getD v.currentMoveIndex "") = some em → m ≠ em →
      (v.board.pieceAt em.fromSq).isSome = true →
      v.validateMove input = (v, Except.ok (false, "Incorrect. Try again or type \x27hint\x27 for help."))) := by
  refine ⟨?_, ?_, ?_⟩
  · intro hp
    simp only [MoveValidator.validateMove, hp]
  · intro m hp hleg
    simp only [MoveValidator.validateMove, hp, hleg, if_false]
  · intro m em hp hnc hexp hne hocc
    have hleg : m ∈ v.board.legalMoves := parseMove_legal hp
    have hnle : ¬ (v.solutionMoves.length ≤ v.currentMoveIndex) := by
      simp only [MoveValidator.isComplete, decide_eq_false_iff_not] at hnc
      exact hnc
    simp only [MoveValidator.validateMove, hp, hleg, if_true, hnle, if_false, hexp, hne,
      Board.san, hocc, if_true]

theorem C2_witness :
    (parseMove scenarioValidator.board "zzz" = none ∧
      scenarioValidator.validateMove "zzz" =
        (scenarioValidator, Except.ok (false, invalidFormatMessage "zzz"))) ∧
    (parseMove fourMoveValidator.board "d7d5" = some ⟨51, 35, none⟩ ∧
      fourMoveValidator.validateMove "d7d5" =
        (fourMoveValidator, Except.ok (false, "Incorrect. Try again or type \x27hint\x27 for help."))) := by
  refine ⟨⟨by decide, (C2_rejection_is_safe scenarioValidator "zzz").1 (by decide)⟩,
    ⟨by decide, (C2_rejection_is_safe fourMoveValidator "d7d5").2.2 ⟨51, 35, none⟩ ⟨52, 36, none⟩
      (by decide) (by decide) (by decide) (by decide) (by decide)⟩⟩

/-- C3: `select_puzzle` evaluates the fallback tiers in the fixed order of
the spec and returns the first tier's non-empty result; a returned puzzle
whose id is in the exclusion set forces the excluding tier (tier 1) to have
been empty; and the not-found failure occurs only when every tier, the
unconstrained tier 6 included, returns no puzzle. -/
theorem C3_fallback_cascade (db : List PuzzleRow) (d : Int) (gamePhase : Option String)
    (solved : List String) (theme : Option String) (hd1 : 1 ≤ d) (hd5 : d ≤ 5) :
    (selectPuzzle db d gamePhase solved theme =
      (match firstSome (specFallbackTiers db d gamePhase solved theme) with
        | some p => Except.ok p
        | none => Except.error "No puzzles available in database")) ∧
    (∀ p : PuzzleRow, selectPuzzle db d gamePhase solved theme = Except.ok p →
      solved.contains p.puzzleId = true →
      queryPuzzleRows db (getDifficultyRange d) gamePhase solved true theme = none) ∧
    (∀ e : String, selectPuzzle db d gamePhase solved theme = Except.error e →
      ∀ o ∈ specFallbackTiers db d gamePhase solved theme, o = none) := by
  have hmain := selectPuzzle_eq_firstSome db d gamePhase solved theme hd1 hd5
  refine ⟨hmain, ?_, ?_⟩
  · intro p hsel hmem
    cases hq : queryPuzzleRows db (getDifficultyRange d) gamePhase solved true theme with
    | none => rfl
    | some q =>
      rw [hmain] at hsel
      have hfs : firstSome (specFallbackTiers db d gamePhase solved theme) = some q := by
        unfold specFallbackTiers
        rw [hq]
        rfl
      rw [hfs] at hsel
      cases hsel
      have hq2 := List.find?_some hq
      unfold matchesQuery at hq2
      rw [List.any_eq_true] at hq2
      obtain ⟨t, _, hw⟩ := hq2
      unfold rowWhere at hw
      simp only [Bool.and_eq_true] at hw
      have hexcl := hw.2
      by_cases hs : solved.isEmpty
      · have hnil : solved = [] := by simpa [List.isEmpty_iff] using hs
        subst hnil
        simp at hmem
      · rw [if_pos ⟨trivial, hs⟩] at hexcl
        simp only [Bool.not_eq_true'] at hexcl
        rw [hmem] at hexcl
        cases hexcl
  · intro e hsel o ho
    rw [hmain] at hsel
    cases hfs : firstSome (specFallbackTiers db d gamePhase solved theme) with
    | some q => rw [hfs] at hsel; cases hsel
    | none => exact firstSome_eq_none hfs o ho

theorem C3_witness :
    (selectPuzzle [sampleRow] 2 (some "middlegame") ["othersolved"] none =
      (match firstSome (specFallbackTiers [sampleRow] 2 (some "middlegame") ["othersolved"] none) with
        | some p => Except.ok p
        | none => Except.error "No puzzles available in database")) ∧
    selectPuzzle [sampleRow] 2 (some "middlegame") ["othersolved"] none = Except.ok sampleRow := by
  refine ⟨(C3_fallback_cascade [sampleRow] 2 (some "middlegame") ["othersolved"] none
    (by decide) (by decide)).1, rfl⟩

/-- C4: the phase predicates used by `select`. The final two conjuncts prove
the endgame and opening predicates are exactly as claimed, but middlegame is
not: `mixedThemeRow` (piece_count 20, themes `endgame` and `fork`) has a
theme inside the endgame keyword set, so the claimed predicate — matching
the comment in `_build_phase_filter` — rejects it, yet the SQL LEFT JOIN
evaluates `NOT IN` per join row and the `fork` row passes, so the query
accepts the puzzle as middlegame and the selector returns it. -/
theorem C4_phase_filter_code_bug :
    specMiddlegamePredicate mixedThemeRow = false ∧
    matchesQuery none (some "middlegame") [] false none mixedThemeRow = true ∧
    queryPuzzleRows [mixedThemeRow] (getDifficultyRange 3) (some "middlegame") [] false none =
      some mixedThemeRow ∧
    mixedThemeRow.themes.contains "endgame" = true ∧
    ENDGAME_PIECE_THRESHOLD ≤ mixedThemeRow.pieceCount ∧
    (∀ p : PuzzleRow, matchesQuery none (some "endgame") [] false none p =
      ((p.pieceCount < ENDGAME_PIECE_THRESHOLD) ||
        p.themes.any (fun th => ENDGAME_THEMES.contains th))) ∧
    (∀ p : PuzzleRow, matchesQuery none (some "opening") [] false none p =
      ((p.openingTags ≠ "") || p.themes.any (fun th => OPENING_THEMES.contains th))) := by
  refine ⟨by decide, by decide, by decide, by decide, by decide, ?_, ?_⟩
  · intro p
    unfold matchesQuery joinRows rowWhere buildPhaseFilter
    cases hth : p.themes with
    | nil => simp
    | cons a l =>
      simp only [hth, List.isEmpty_cons, Bool.false_eq_true, if_false, List.map_cons,
        List.any_cons]
      cases hA : (decide (p.pieceCount < ENDGAME_PIECE_THRESHOLD))
      · simp [hA]
        congr 1
        exact any_map_some_match (fun th => decide (th ∈ ENDGAME_THEMES)) l
      · simp [hA]
  · intro p
    unfold matchesQuery joinRows rowWhere buildPhaseFilter
    cases hth : p.themes with
    | nil => simp
    | cons a l =>
      simp only [hth, List.isEmpty_cons, Bool.false_eq_true, if_false, List.map_cons,
        List.any_cons]
      cases hA : (decide (p.openingTags = ""))
      · simp [hA]
      · simp [hA]
        congr 1
        exact any_map_some_match (fun th => decide (th ∈ OPENING_THEMES)) l

/-- C5 (amended): each difficulty level maps to the fixed rating interval
claimed, and the bucket derivation `_rating_to_difficulty` is
lower-bound-inclusive on every boundary (rating 1200 is bucket 2); but a
puzzle returned by the difficulty-filtered store query satisfies
`min ≤ rating ≤ max` with the upper bound inclusive (SQL `BETWEEN`), not
exclusive, so adjacent difficulty queries overlap at the shared boundary. -/
theorem C5_rating_intervals (db : List PuzzleRow) (rng : Int × Int) (gamePhase : Option String)
    (solved : List String) (excl : Bool) (theme : Option String) (p : PuzzleRow) :
    (getDifficultyRange 1 = some (600, 1200) ∧ getDifficultyRange 2 = some (1200, 1600) ∧
      getDifficultyRange 3 = some (1600, 2000) ∧ getDifficultyRange 4 = some (2000, 2400) ∧
      getDifficultyRange 5 = some (2400, 3000)) ∧
    (∀ r : Int, ((600 ≤ r ∧ r < 1200) → ratingToDifficulty r = 1) ∧
      ((1200 ≤ r ∧ r < 1600) → ratingToDifficulty r = 2) ∧
      ((1600 ≤ r ∧ r < 2000) → ratingToDifficulty r = 3) ∧
      ((2000 ≤ r ∧ r < 2400) → ratingToDifficulty r = 4) ∧
      (2400 ≤ r → ratingToDifficulty r = 5)) ∧
    ratingToDifficulty 1200 = 2 ∧
    (queryPuzzleRows db (some rng) gamePhase solved excl theme = some p →
      rng.1 ≤ p.rating ∧ p.rating ≤ rng.2) := by
  refine ⟨⟨rfl, rfl, rfl, rfl, rfl⟩, ?_, by decide, ?_⟩
  · intro r
    unfold ratingToDifficulty
    refine ⟨?_, ?_, ?_, ?_, ?_⟩ <;> (intro h; split_ifs <;> omega)
  · intro hq
    have hp := List.find?_some hq
    unfold matchesQuery at hp
    rw [List.any_eq_true] at hp
    obtain ⟨t, -, hw⟩ := hp
    unfold rowWhere at hw
    simp only [Bool.and_eq_true, decide_eq_true_eq] at hw
    exact hw.1.1.1

/-- C5 counterexample: a request for difficulty 1 returns a puzzle rated
exactly 1200, which the claim places outside difficulty 1's interval
(600–1200 exclusive above) and in bucket 2. -/
theorem C5_counterexample :
    selectPuzzle [boundaryRow] 1 (some "middlegame") [] none = Except.ok boundaryRow ∧
    boundaryRow.rating = 1200 ∧
    ratingToDifficulty boundaryRow.rating = 2 ∧
    ¬ (boundaryRow.rating < 1200) := by
  refine ⟨rfl, rfl, by decide, by decide⟩

theorem C5_witness :
    (600 : Int) ≤ boundaryRow.rating ∧ boundaryRow.rating ≤ 1200 :=
  (C5_rating_intervals [boundaryRow] (600, 1200) (some "middlegame") [] true none boundaryRow).2.2.2
    (by decide)

/-- C6 (amended): for a 4-move puzzle (setup move plus three solution
moves), one correct submission advances the cursor to 2 — the scripted reply
`m2` auto-applied — with `is_complete()` still false and a success-continue
result; the puzzle completes only after a second correct submission
supplying `m3`. -/
theorem C6_four_move_puzzle (p : Puzzle) (v : MoveValidator) (input : String) (m m2 : Move)
    (hmoves : p.moves.length = 4)
    (hinit : MoveValidator.init p = some v)
    (hp : parseMove v.board input = some m)
    (hexp : Move.fromUci (v.solutionMoves.getD 0 "") = some m)
    (hocc : (v.board.pieceAt m.fromSq).isSome = true)
    (hnext : Move.fromUci (v.solutionMoves.getD 1 "") = some m2)
    (hocc2 : ((v.board.pushRaw m).pieceAt m2.fromSq).isSome = true) :
    v.validateMove input =
      ({ v with board := (v.board.pushRaw m).pushRaw m2, currentMoveIndex := 2 },
        Except.ok (true, "Correct! Continue...")) ∧
    (MoveValidator.isComplete { v with board := (v.board.pushRaw m).pushRaw m2, currentMoveIndex := 2 }) = false ∧
    (∀ (input2 : String) (m3 : Move),
      parseMove ((v.board.pushRaw m).pushRaw m2) input2 = some m3 →
      Move.fromUci (v.solutionMoves.getD 2 "") = some m3 →
      (((v.board.pushRaw m).pushRaw m2).pieceAt m3.fromSq).isSome = true →
      (MoveValidator.validateMove { v with board := (v.board.pushRaw m).pushRaw m2, currentMoveIndex := 2 } input2) =
        ({ v with board := ((v.board.pushRaw m).pushRaw m2).pushRaw m3, currentMoveIndex := 3 },
          Except.ok (true, "Puzzle solved! Well done!")) ∧
      (MoveValidator.isComplete { v with board := ((v.board.pushRaw m).pushRaw m2).pushRaw m3, currentMoveIndex := 3 }) = true) := by
  cases hs : setupBoard p with
  | none => rw [MoveValidator.init, hs] at hinit; cases hinit
  | some b =>
    rw [MoveValidator.init, hs] at hinit
    simp only [Option.map_some'] at hinit
    cases hinit
    have hlen3 : (Puzzle.solutionMoves p).length = 3 := by
      simp only [Puzzle.solutionMoves, List.length_drop, hmoves]
    have hmid : (0 : Nat) + 1 < (Puzzle.solutionMoves p).length := by omega
    have h1 := validateMove_correct_mid ⟨p, b, p.solutionMoves, 0⟩ input m m2 hp hexp hocc hmid hnext hocc2
    have hne : ¬ ((0 : Nat) + 2 = (Puzzle.solutionMoves p).length) := by omega
    rw [if_neg hne] at h1
    refine ⟨h1, ?_, ?_⟩
    · simp only [MoveValidator.isComplete, decide_eq_false_iff_not]
      omega
    · intro input2 m3 hp3 hexp3 hocc3
      have hlast : (2 : Nat) + 1 = (Puzzle.solutionMoves p).length := by omega
      have h2 := validateMove_correct_last
        ⟨p, (Board.pushRaw b m).pushRaw m2, p.solutionMoves, 2⟩ input2 m3 hp3 hexp3 hocc3 hlast
      refine ⟨h2, ?_⟩
      simp only [MoveValidator.isComplete, decide_eq_true_eq]
      omega

/-- C6 counterexample: on the concrete four-move puzzle, submitting the
correct first solution move yields success-continue with cursor 2 and
`is_complete() = false`, not the claimed completion after one submission. -/
theorem C6_counterexample :
    fourMovePuzzle.moves.length = 4 ∧
    MoveValidator.init fourMovePuzzle = some fourMoveValidator ∧
    fourMoveValidator.validateMove "e7e5" =
      ({ fourMoveValidator with board := (fourMoveValidator.board.pushRaw ⟨52, 36, none⟩).pushRaw ⟨6, 21, none⟩, currentMoveIndex := 2 },
        Except.ok (true, "Correct! Continue...")) ∧
    (MoveValidator.isComplete { fourMoveValidator with board := (fourMoveValidator.board.pushRaw ⟨52, 36, none⟩).pushRaw ⟨6, 21, none⟩, currentMoveIndex := 2 }) = false := by
  refine ⟨rfl, by decide, ?_, by decide⟩
  have h := validateMove_correct_mid fourMoveValidator "e7e5" ⟨52, 36, none⟩ ⟨6, 21, none⟩
    (by decide) (by decide) (by decide) (by decide) (by decide) (by decide)
  rw [h, if_neg (by decide)]
  rfl

theorem C6_witness :
    fourMoveValidator.validateMove "e7e5" =
      ({ fourMoveValidator with board := (fourMoveValidator.board.pushRaw ⟨52, 36, none⟩).pushRaw ⟨6, 21, none⟩, currentMoveIndex := 2 },
        Except.ok (true, "Correct! Continue...")) ∧
    (MoveValidator.validateMove { fourMoveValidator with board := (fourMoveValidator.board.pushRaw ⟨52, 36, none⟩).pushRaw ⟨6, 21, none⟩, currentMoveIndex := 2 } "b8c6").2 =
      Except.ok (true, "Puzzle solved! Well done!") := by
  have h := C6_four_move_puzzle fourMovePuzzle fourMoveValidator "e7e5" ⟨52, 36, none⟩ ⟨6, 21, none⟩
    (by decide) (by decide) (by decide) (by decide) (by decide) (by decide) (by decide)
  refine ⟨h.1, ?_⟩
  have h3 := h.2.2 "b8c6" ⟨57, 42, none⟩ (by decide) (by decide) (by decide)
  rw [h3.1]

/-- C7: two input spellings that parse to the same move produce identical
validation results (same accepted value, message and resulting state); in
spec section 8's scenario, submitting `e5` (SAN) and `e7e5` (coordinate)
both yield `accepted = true` and `is_complete() = true`. -/
theorem C7_san_uci_equivalence :
    (∀ (v : MoveValidator) (s1 s2 : String) (m : Move),
      parseMove v.board s1 = some m → parseMove v.board s2 = some m →
      v.validateMove s1 = v.validateMove s2) ∧
    ((scenarioValidator.validateMove "e5").2 = Except.ok (true, "Puzzle solved! Well done!") ∧
      (scenarioValidator.validateMove "e5").1.isComplete = true) ∧
    ((scenarioValidator.validateMove "e7e5").2 = Except.ok (true, "Puzzle solved! Well done!") ∧
      (scenarioValidator.validateMove "e7e5").1.isComplete = true) := by
  have hsan := validateMove_correct_last scenarioValidator "e5" ⟨52, 36, none⟩
    (by decide) (by decide) (by decide) (by decide)
  have huci := validateMove_correct_last scenarioValidator "e7e5" ⟨52, 36, none⟩
    (by decide) (by decide) (by decide) (by decide)
  refine ⟨?_, ⟨?_, ?_⟩, ⟨?_, ?_⟩⟩
  · intro v s1 s2 m h1 h2
    simp only [MoveValidator.validateMove, h1, h2]
  · rw [hsan]
  · rw [hsan]; decide
  · rw [huci]
  · rw [huci]; decide

theorem C7_witness :
    scenarioValidator.validateMove "e5" = scenarioValidator.validateMove "e7e5" :=
  C7_san_uci_equivalence.1 scenarioValidator "e5" "e7e5" ⟨52, 36, none⟩ (by decide) (by decide)

/-- C8: construction applies `moves[0]` (the opponent's setup move) to the
position described by the puzzle FEN, initializes the cursor to 0 over
`solution_moves = moves[1:]`, and `get_current_solution_move()` immediately
equals `moves[1]`. -/
theorem C8_construction_initializes (p : Puzzle) (b0 : Board) (m0s : String) (m0 : Move)
    (hfen : fenToBoard p.fen = some b0)
    (hhead : p.moves.head? = some m0s)
    (huci : Move.fromUci m0s = some m0)
    (hocc : (b0.pieceAt m0.fromSq).isSome = true)
    (hlen : 2 ≤ p.moves.length) :
    MoveValidator.init p = some ⟨p, b0.pushRaw m0, p.moves.drop 1, 0⟩ ∧
    (MoveValidator.getCurrentSolutionMove ⟨p, b0.pushRaw m0, p.moves.drop 1, 0⟩) = p.moves[1]? := by
  have hsb : setupBoard p = some (b0.pushRaw m0) := by
    simp only [setupBoard, hfen, hhead, huci, Option.bind_eq_bind, Option.some_bind,
      Board.pushChecked, hocc, if_true]
  constructor
  · simp only [MoveValidator.init, hsb, Puzzle.solutionMoves]
    rfl
  · have hlt : 1 < p.moves.length := by omega
    have hget : p.moves[1]? = some p.moves[1] := List.getElem?_eq_getElem hlt
    have hdroplen : (p.moves.drop 1).length = p.moves.length - 1 := List.length_drop 1 p.moves
    have hnle : ¬ ((p.moves.drop 1).length ≤ 0) := by omega
    simp only [MoveValidator.getCurrentSolutionMove, hnle, if_false, hget]
    have : (p.moves.drop 1).getD 0 "" = p.moves[1] := by
      have h0 : (p.moves.drop 1)[0]? = p.moves[1]? := by
        rw [List.getElem?_drop]
      rw [List.getD_eq_getElem?_getD, h0, hget]
      rfl
    rw [this]

theorem C8_witness :
    MoveValidator.init scenarioPuzzle =
      some ⟨scenarioPuzzle, startBoard.pushRaw ⟨12, 28, none⟩, scenarioPuzzle.moves.drop 1, 0⟩ ∧
    MoveValidator.getCurrentSolutionMove
      ⟨scenarioPuzzle, startBoard.pushRaw ⟨12, 28, none⟩, scenarioPuzzle.moves.drop 1, 0⟩ =
      scenarioPuzzle.moves[1]? :=
  C8_construction_initializes scenarioPuzzle startBoard "e2e4" ⟨12, 28, none⟩
    (by decide) (by decide) (by decide) (by decide) (by decide)

/-- C9: the claim fails on the code. A one-move puzzle (fewer than 2 moves)
constructs successfully — and is immediately complete — instead of failing
fast, and a well-formed but illegal setup move (`e2e5` from the starting
position, provably not among the legal moves) is silently applied at
construction instead of raising. -/
theorem C9_construction_not_fail_fast :
    oneMovePuzzle.moves.length < 2 ∧
    (MoveValidator.init oneMovePuzzle).isSome = true ∧
    ((MoveValidator.init oneMovePuzzle).map MoveValidator.isComplete) = some true ∧
    (⟨12, 36, none⟩ : Move) ∉ ((fenToBoard illegalSetupPuzzle.fen).getD emptyBoard).legalMoves ∧
    Move.fromUci "e2e5" = some ⟨12, 36, none⟩ ∧
    (MoveValidator.init illegalSetupPuzzle).isSome = true := by
  refine ⟨by decide, by decide, by decide, by decide, by decide, by decide⟩

/-- C10: `0 ≤ current_move_index ≤ len(solution_moves)` holds after
construction and is preserved by every `validate_move` call (which also
leaves `solution_moves` itself unchanged) and by `reset`;
`get_moves_remaining()` equals `len - index` and is never negative; and once
`is_complete()` is true a further `validate_move` returns
`accepted = false` and leaves the state unchanged. -/
theorem C10_cursor_invariants (p : Puzzle) (v w : MoveValidator) (input : String) :
    (MoveValidator.init p = some v → v.currentMoveIndex ≤ v.solutionMoves.length) ∧
    (w.currentMoveIndex ≤ w.solutionMoves.length →
      (w.validateMove input).1.currentMoveIndex ≤ (w.validateMove input).1.solutionMoves.length ∧
      (w.validateMove input).1.solutionMoves = w.solutionMoves) ∧
    (∀ w2 : MoveValidator, w.reset = some w2 →
      w2.currentMoveIndex = 0 ∧ w2.solutionMoves = w.solutionMoves ∧
      w2.currentMoveIndex ≤ w2.solutionMoves.length) ∧
    (w.currentMoveIndex ≤ w.solutionMoves.length →
      w.getMovesRemaining = (w.solutionMoves.length : Int) - (w.currentMoveIndex : Int) ∧
      0 ≤ w.getMovesRemaining) ∧
    (w.isComplete = true → ∃ msg, w.validateMove input = (w, Except.ok (false, msg))) := by
  refine ⟨?_, ?_, ?_, ?_, validateMove_complete_noop w input⟩
  · intro h
    cases hs : setupBoard p with
    | none => rw [MoveValidator.init, hs] at h; cases h
    | some b =>
      rw [MoveValidator.init, hs] at h
      cases h
      exact Nat.zero_le _
  · intro hbound
    exact ⟨(validateMove_fst_spec w input).2 hbound, (validateMove_fst_spec w input).1⟩
  · intro w2 h
    cases hs : setupBoard w.puzzle with
    | none => rw [MoveValidator.reset, hs] at h; cases h
    | some b =>
      rw [MoveValidator.reset, hs] at h
      cases h
      exact ⟨rfl, rfl, Nat.zero_le _⟩
  · intro hbound
    unfold MoveValidator.getMovesRemaining
    omega

theorem C10_witness :
    completedScenarioValidator.getMovesRemaining = 0 ∧
    (∃ msg, completedScenarioValidator.validateMove "e5" =
      (completedScenarioValidator, Except.ok (false, msg))) := by
  have h := C10_cursor_invariants scenarioPuzzle scenarioValidator completedScenarioValidator "e5"
  refine ⟨?_, h.2.2.2.2 (by decide)⟩
  have h4 := h.2.2.2.1 (by decide)
  rw [h4.1]
  decide

end CPG
